import Mathlib

/-!
Shallow embedding of curtin's `curtin/commands/install.py` (the install
orchestrator) and proofs of the specification's claims about it.

Configuration values are modelled by `Curtin.JVal`, a JSON/YAML-like value
type mirroring the Python values a curtin config can hold.  Filesystem and
process side effects are modelled by explicit oracle parameters and event
traces; fallible Python code returns `Except PyErr`.
-/

namespace Curtin

/-- Python/YAML-like configuration values (None, bool, int, str, list, dict).
Dicts are association lists with distinct keys, in insertion order, as in
Python. -/
inductive JVal where
  | null
  | bool (b : Bool)
  | int (n : Int)
  | str (s : String)
  | list (xs : List JVal)
  | dict (kvs : List (String × JVal))

/-- Python truthiness (`if hp:`, `if not cmd:` ...): None, False, 0, empty
string/list/dict are falsy. -/
def truthy : JVal → Bool
  | .null => false
  | .bool b => b
  | .int n => n != 0
  | .str s => s != ""
  | .list xs => !xs.isEmpty
  | .dict kvs => !kvs.isEmpty

mutual

/-- Python `==` on configuration values: structural, with the numeric
equivalence `True == 1`, `False == 0`. -/
def pyEq : JVal → JVal → Bool
  | .null, .null => true
  | .bool a, .bool b => a == b
  | .bool a, .int n => (if a then (1 : Int) else 0) == n
  | .int n, .bool a => n == (if a then (1 : Int) else 0)
  | .int a, .int b => a == b
  | .str a, .str b => a == b
  | .list xs, .list ys => pyEqL xs ys
  | .dict kvs, .dict kvs2 => pyEqD kvs kvs2
  | _, _ => false

/-- Elementwise Python `==` on lists. -/
def pyEqL : List JVal → List JVal → Bool
  | [], [] => true
  | x :: xs, y :: ys => pyEq x y && pyEqL xs ys
  | _, _ => false

/-- Python `==` on dicts, modelled on insertion-ordered association lists. -/
def pyEqD : List (String × JVal) → List (String × JVal) → Bool
  | [], [] => true
  | (k, v) :: kvs, (k2, v2) :: kvs2 => k == k2 && pyEq v v2 && pyEqD kvs kvs2
  | _, _ => false

end

/-- Python `v == "s"` for a string literal on the right: true only when `v`
is the same string. -/
def pyEqStr (v : JVal) (s : String) : Bool :=
  match v with
  | .str t => t == s
  | _ => false

/-- Python `str(v)` (scalars rendered faithfully; for lists and dicts only
the first character matters to the code under verification, which checks
regex matching of `str(delay)`, so a stand-in rendering is used). -/
def pyStr : JVal → String
  | .null => "None"
  | .bool b => if b then "True" else "False"
  | .int n => toString n
  | .str s => s
  | .list _ => "[...]"
  | .dict _ => "\x7b...\x7d"

/-- Is the value a Python dict? -/
def JVal.isDict : JVal → Bool
  | .dict _ => true
  | _ => false

/-- Python `d.get(key)` / `d[key]` lookup on a dict association list. -/
def dictGet : List (String × JVal) → String → Option JVal
  | [], _ => none
  | (k, v) :: rest, key => if k = key then some v else dictGet rest key

/-- Python `d[key] = v`: replace in place, or append a new binding. -/
def setKey : List (String × JVal) → String → JVal → List (String × JVal)
  | [], key, v => [(key, v)]
  | (k, w) :: rest, key, v =>
      if k = key then (key, v) :: rest else (k, w) :: setKey rest key v

/-- Python `del d[key]`. -/
def delKey (kvs : List (String × JVal)) (key : String) : List (String × JVal) :=
  kvs.filter (fun kv => kv.1 != key)

/-- Python exceptions raised by the code under verification.  `procExec`
is curtin's `util.ProcessExecutionError` (fields bundled separately in
`PEErr` below, so it is declared later and this constructor carries the
message only where the structured fields are not needed). -/
inductive PyErr where
  | typeError (msg : String)
  | valueError (msg : String)
  | attributeError (msg : String)
  | indexError (msg : String)
  | osError (msg : String)
deriving DecidableEq

/-- Source `install.py:374-392`, `migrate_proxy_settings(cfg)`.
Returns the updated config together with a flag recording whether
`LOG.warn` was called (the "legacy http_proxy differs" warning).
Mutation of `cfg` is modelled by returning the new dict. -/
def migrate_proxy_settings (cfg : List (String × JVal)) :
    Except PyErr (List (String × JVal) × Bool) :=
  -- proxy = cfg.get('proxy', {});  raise ValueError if not a dict
  match (dictGet cfg "proxy").getD (.dict []) with
  | .dict pkvs =>
    -- if 'http_proxy' in cfg:
    match dictGet cfg "http_proxy" with
    | some hp =>
      if truthy hp then
        -- if proxy.get('http_proxy', hp) != hp: warn (proxy unchanged)
        -- else: proxy['http_proxy'] = hp
        if pyEq ((dictGet pkvs "http_proxy").getD hp) hp = false then
          .ok (setKey (delKey cfg "http_proxy") "proxy" (.dict pkvs), true)
        else
          .ok (setKey (delKey cfg "http_proxy") "proxy"
                 (.dict (setKey pkvs "http_proxy" hp)), false)
      else
        -- falsy legacy value: only `del cfg['http_proxy']`
        .ok (setKey (delKey cfg "http_proxy") "proxy" (.dict pkvs), false)
    | none => .ok (setKey cfg "proxy" (.dict pkvs), false)
  | _ => .error (.valueError "proxy in config is not a dictionary")

/-- The value of `cfg['proxy']['http_proxy']` when `cfg['proxy']` is a dict
(used to state claims about proxy migration). -/
def proxyHttp (cfg : List (String × JVal)) : Option JVal :=
  match dictGet cfg "proxy" with
  | some (.dict pkvs) => dictGet pkvs "http_proxy"
  | _ => none

/-- Source `install.py:63-69`, `clear_install_log(logfile)`.
`util.ensure_dir` runs OUTSIDE the try block, so its failure escapes;
the `open(logfile, 'w').close()` failure is swallowed by
`except Exception: pass`.  The two oracle booleans say whether each
filesystem primitive fails. -/
def clear_install_log (ensureDirFails openFails : Bool) : Except PyErr Unit :=
  if ensureDirFails then .error (.osError "ensure_dir failed")
  else
    -- try: open(logfile, 'w').close() except Exception: pass
    let _ := openFails
    .ok ()

/-- Source `install.py:101-109`, `writeline(fname, output)`.
Appends a newline if missing; an IOError opening/writing the file is
swallowed.  Returns the line actually appended (`none` when the write
failed silently). -/
def writeline (writeFails : Bool) (output : String) : Except PyErr (Option String) :=
  let out := if output.data.getLast? = some '\n' then output else output ++ "\n"
  if writeFails then .ok none else .ok (some out)

/-- Source `install.py:72-87`, `copy_install_log(logfile, target, ...)`.
A falsy `logfile` or a missing source file is handled with `LOG.warn` and
an early return (`.ok false` = nothing copied).  Reading the log
(`util.load_file`) or writing it into the target (`util.write_file`) is
NOT wrapped in any try/except, so a failure there escapes; the oracle
booleans `loadOk`/`writeOk` say whether those primitives succeed. -/
def copy_install_log (logfile : Option String) (isfile loadOk writeOk : Bool) :
    Except PyErr Bool :=
  match logfile with
  | none => .ok false
  | some lf =>
    if lf = "" then .ok false
    else if !isfile then .ok false
    else if !loadOk then .error (.osError "load_file failed")
    else if !writeOk then .error (.osError "write_file failed")
    else .ok true

/-- Source `install.py:112-155`, `WorkingDir.__init__`.  `created` records,
in order, every state file the constructor actually creates under the
state directory (`json.dump` creates the config snapshot; the touch loop
opens `config_f, fstab_f, netconf_f, netstate_f` in append mode).  The
`interfaces` path is computed but never touched. -/
structure WorkingDir where
  top : String
  scratch : String
  target : String
  interfaces : String
  netconf : String
  netstate : String
  fstab : String
  config_file : String
  created : List String

/-- Source `install.py:113-155`.  `mkdtemp` is modelled by the fixed fresh
name `/tmp/tmpwd`; `ensureDirOk` says whether `util.ensure_dir(target_d)`
succeeds, and `targetListing` is `os.listdir(target_d)` after it. -/
def WorkingDir.init (cfg : List (String × JVal)) (ensureDirOk : Bool)
    (targetListing : List String) : Except PyErr WorkingDir :=
  let top_d := "/tmp/tmpwd"
  let state_d := top_d ++ "/state"
  let target_d :=
    match dictGet cfg "install" with
    | some (.dict ikvs) =>
      match dictGet ikvs "target" with
      | some t => if truthy t then pyStr t else top_d ++ "/target"
      | none => top_d ++ "/target"
    | _ => top_d ++ "/target"
  if !ensureDirOk then
    .error (.valueError ("Unable to create target directory " ++ target_d))
  else if !targetListing.isEmpty then
    .error (.valueError ("Provided target dir " ++ target_d ++ " was not empty."))
  else
    let netconf_f := state_d ++ "/network_config"
    let netstate_f := state_d ++ "/network_state"
    let interfaces_f := state_d ++ "/interfaces"
    let config_f := state_d ++ "/config"
    let fstab_f := state_d ++ "/fstab"
    .ok { top := top_d
          scratch := top_d ++ "/scratch"
          target := target_d
          interfaces := interfaces_f
          netconf := netconf_f
          netstate := netstate_f
          fstab := fstab_f
          config_file := config_f
          -- json.dump creates config_f; then the touch loop runs over
          -- (config_f, fstab_f, netconf_f, netstate_f) -- interfaces_f
          -- is absent from it.
          created := [config_f, fstab_f, netconf_f, netstate_f] }

/-- Outcome of one `subprocess.Popen` invocation, supplied by an oracle:
either `Popen` itself raises OSError, or the child runs to completion with
the given combined stdout+stderr bytes and return code. -/
inductive ExecResult where
  | oserror (reason : String)
  | finished (output : String) (rc : Int)

/-- Fields of curtin's `util.ProcessExecutionError` as raised by
`Stage.run` (`install.py:233` and `install.py:246-248`). -/
structure PEErr where
  cmd : JVal
  stdout : Option String
  stderr : Option String
  exit_code : Option Int
  reason : Option String

/-- Lexicographic strict order on character lists by code point — the
order Python string comparison (and hence `sorted`) uses. -/
def ltCh : List Char → List Char → Bool
  | [], [] => false
  | [], _ :: _ => true
  | _ :: _, [] => false
  | a :: as, b :: bs =>
    if a.toNat < b.toNat then true
    else if b.toNat < a.toNat then false
    else ltCh as bs

/-- Python `a <= b` on strings. -/
def keyLe (a b : String) : Bool := !(ltCh b.data a.data)

/-- Python `a < b` on strings. -/
def keyLt (a b : String) : Bool := ltCh a.data b.data

/-- Source `install.py:212`: `sorted(self.commands.keys())` — ascending
lexicographic order of the command names. -/
def sortKeys (cmds : List (String × JVal)) : List String :=
  List.insertionSort (fun a b => keyLe a b = true) (cmds.map Prod.fst)

/-- Source `install.py:211-248`, the body of `Stage.run`, iterating over a
given key list.  For each key: a falsy command is skipped (`if not cmd:
continue`); otherwise the command runs via the oracle `ex`.  An OSError
from `Popen` raises `ProcessExecutionError(cmd=cmd, reason=e)`; a nonzero
return code raises `ProcessExecutionError(stdout=output, stderr="",
exit_code=rc, cmd=cmd)`.  Returns the names of the commands launched, in
order, paired with the error (if any) that aborted the stage. -/
def runCmdsFrom (ex : String → JVal → ExecResult)
    (cmds : List (String × JVal)) :
    List String → List String × Option PEErr
  | [] => ([], none)
  | k :: ks =>
    match dictGet cmds k with
    | none => runCmdsFrom ex cmds ks   -- unreachable: keys come from cmds
    | some cmd =>
      if truthy cmd = false then runCmdsFrom ex cmds ks
      else
        match ex k cmd with
        | .oserror r =>
          ([k], some { cmd := cmd, stdout := none, stderr := none,
                       exit_code := none, reason := some r })
        | .finished out rc =>
          if rc ≠ 0 then
            ([k], some { cmd := cmd, stdout := some out, stderr := some "",
                         exit_code := some rc, reason := none })
          else
            let rest := runCmdsFrom ex cmds ks
            (k :: rest.1, rest.2)

/-- Source `install.py:211-248`, `Stage.run`: commands run in
`sorted(self.commands.keys())` order. -/
def runStage (ex : String → JVal → ExecResult) (cmds : List (String × JVal)) :
    List String × Option PEErr :=
  runCmdsFrom ex cmds (sortKeys cmds)

/-- Source `install.py:452-464`, the stage loop of `cmd_install`: for each
name in `cfg.get('stages')`, build a `Stage` from
`cfg.get('%s_commands' % name, {})` and run it; the first stage error
propagates (the `raise` aborts the loop).  The trace records
`(stage, command)` for every command launched. -/
def runStages (ex : String → String → JVal → ExecResult)
    (commandsOf : String → List (String × JVal)) :
    List String → List (String × String) × Option PEErr
  | [] => ([], none)
  | s :: rest =>
    let r := runStage (ex s) (commandsOf s)
    match r.2 with
    | some err => (r.1.map (fun k => (s, k)), some err)
    | none =>
      let r2 := runStages ex commandsOf rest
      (r.1.map (fun k => (s, k)) ++ r2.1, r2.2)

/-- Key `k` is bound in the stage dict to a truthy (non-skipped) command. -/
def activePred (cmds : List (String × JVal)) (k : String) : Bool :=
  match dictGet cmds k with
  | some v => truthy v
  | none => false

/-- The command names of one stage that actually execute: the sorted key
list, restricted to keys bound to truthy commands. -/
def activeKeys (cmds : List (String × JVal)) : List String :=
  (sortKeys cmds).filter (activePred cmds)

/-- The planned execution sequence across stages: stage order as listed,
command order sorted, falsy commands skipped. -/
def planned (commandsOf : String → List (String × JVal)) :
    List String → List (String × String)
  | [] => []
  | s :: rest =>
    (activeKeys (commandsOf s)).map (fun k => (s, k)) ++ planned commandsOf rest

/-- Key `k` of stage dict `cmds` is active (bound to a truthy command) and
the oracle `ex` runs it successfully (exit code 0). -/
def cmdOk (ex : String → JVal → ExecResult) (cmds : List (String × JVal))
    (k : String) : Prop :=
  ∀ cmd, dictGet cmds k = some cmd → truthy cmd = true →
    ∃ out, ex k cmd = .finished out 0

/-- Source `install.py:301-303`, the wrapper script for the delayed
shutdown command. -/
def shcmd : String :=
  "sleep \"$1\" && shift; [ -f /run/block-curtin-poweroff ] && exit 0; exec \"$@\""

/-- Python `re.match(r"\+[0-9]+", s)`: does `s` begin with a plus sign
followed by at least one digit? (`re.match` anchors only at the start.) -/
def plusDigits (s : String) : Bool :=
  match s.toList with
  | '+' :: c :: _ => c.isDigit
  | _ => false

/-- Source `install.py:282`: shutdown flag for each power-state mode. -/
def modeFlag (mode : Option JVal) : Option String :=
  match mode with
  | some v =>
    if pyEqStr v "halt" then some "-H"
    else if pyEqStr v "poweroff" then some "-P"
    else if pyEqStr v "reboot" then some "-r"
    else none
  | none => none

/-- Python `s[1:]`: drop the first character of a string. -/
def strTail (s : String) : String := String.mk (s.data.drop 1)

/-- Source `install.py:289-295`: resolution of the `delay` value.
`"now"` becomes `"0"`; a value whose `str()` begins `+<digit>` becomes its
tail with `"m"` appended (`delay[1:]` — only a string can reach this
branch, since `str()` of any non-string value never starts with `+`);
anything else becomes `str(delay)`. -/
def resolveDelay (delay : JVal) : String :=
  if pyEqStr delay "now" then "0"
  else if plusDigits (pyStr delay) then
    (match delay with
     | .str s => strTail s
     | other => pyStr other) ++ "m"
  else pyStr delay

/-- Source `install.py:274-305`, `load_power_state(pstate)`: `None` means
no command; a non-dict raises TypeError; an unknown mode raises TypeError;
otherwise the returned argv is the sh wrapper followed by the shutdown
invocation, with the resolved delay at index 4 and the optional message
appended. -/
def load_power_state (pstate : Option JVal) : Except PyErr (Option (List String)) :=
  match pstate with
  | none => .ok none
  | some v =>
    match v with
    | .dict kvs =>
      match modeFlag (dictGet kvs "mode") with
      | none => .error (.typeError "power_state[mode] required, must be one of: halt,poweroff,reboot.")
      | some opt =>
        let delay := resolveDelay ((dictGet kvs "delay").getD (.str "5"))
        let msg :=
          match dictGet kvs "message" with
          | some m => if truthy m then [pyStr m] else []
          | none => []
        .ok (some (["sh", "-c", shcmd, "curtin-poweroff", delay]
                    ++ ["shutdown", opt, "now"] ++ msg))
    | _ => .error (.typeError "power_state is not a dict.")

/-- Python `\w`: ASCII letters, digits and underscore (the characters the
`\b` word-boundary assertion counts as word characters). -/
def isWordChar (c : Char) : Bool :=
  c.isAlpha || c.isDigit || c == '_'

/-- Consume the literal character sequence `p` from the front of `cs`. -/
def stripLit : List Char → List Char → Option (List Char)
  | [], cs => some cs
  | _ :: _, [] => none
  | p :: ps, c :: cs => if p == c then stripLit ps cs else none

/-- Does the Python regex `\bset default="[0-9]+"\b` match at the start of
`cs`?  The leading `\b` is checked by the caller; the trailing `\b` sits
between the closing quote (a non-word character) and what follows, so it
holds only when the next character is a word character — at end of line or
before whitespace it fails. -/
def setDefaultHere (cs : List Char) : Bool :=
  match stripLit "set default=\"".toList cs with
  | none => false
  | some rest =>
    let ds := rest.takeWhile (fun c => c.isDigit)
    match rest.dropWhile (fun c => c.isDigit) with
    | '"' :: c :: _ => !ds.isEmpty && isWordChar c
    | _ => false

/-- Does the Python regex `\bmenuentry\b` match at the start of `cs`?
(The leading `\b` is checked by the caller.) -/
def menuentryHere (cs : List Char) : Bool :=
  match stripLit "menuentry".toList cs with
  | none => false
  | some [] => true
  | some (c :: _) => !isWordChar c

/-- Scan every position of the character list for a match of `here`,
tracking whether the previous character was a word character (both regexes
begin with a word character, so the leading `\b` requires a non-word
predecessor; at the start of the string `prevIsWord` is false). -/
def searchWith (here : List Char → Bool) : Bool → List Char → Bool
  | _, [] => false
  | prevIsWord, c :: rest =>
    if !prevIsWord && here (c :: rest) then true
    else searchWith here (isWordChar c) rest

/-- Python `re.search(r"\bset default=\"[0-9]+\"\b", " %s " % line)`
(source `install.py:335`). -/
def searchSetDefault (line : String) : Bool :=
  searchWith setDefaultHere false (" " ++ line ++ " ").toList

/-- Python `re.search(r"\bmenuentry\b", " %s " % line)`
(source `install.py:337`). -/
def searchMenuentry (line : String) : Bool :=
  searchWith menuentryHere false (" " ++ line ++ " ").toList

/-- Python `int(re.sub(r"[^0-9]", '', line))` (source `install.py:336`):
the decimal number formed by all digits of the line, in order.  (A line
reaching this had a regex match, hence at least one digit.) -/
def stripNonDigits (line : String) : Nat :=
  (line.toList.filter (fun c => c.isDigit)).foldl
    (fun acc c => acc * 10 + (c.toNat - '0'.toNat)) 0

/-- Source `install.py:334-336`: the default grub entry index — the value
parsed from the LAST line matching the `set default` regex, 0 when no line
matches. -/
def findDefault (lines : List String) : Nat :=
  lines.foldl (fun acc line =>
    if searchSetDefault line then stripNonDigits line else acc) 0

/-- Source `install.py:334-338`: the 1-based line numbers of every line
matching `\bmenuentry\b`, in file order. -/
def menuLines (lines : List String) : List Nat :=
  (List.range lines.length).filterMap (fun i =>
    match lines.get? i with
    | some l => if searchMenuentry l then some (i + 1) else none
    | none => none)

/-- Accumulator-based whitespace splitter over the character list (`acc`
holds the current token, reversed). -/
def splitWsAux : List Char → List Char → List String
  | [], acc => if acc.isEmpty then [] else [String.mk acc.reverse]
  | c :: cs, acc =>
    if c.isWhitespace then
      (if acc.isEmpty then [] else [String.mk acc.reverse]) ++ splitWsAux cs []
    else splitWsAux cs (c :: acc)

/-- Python `line.split()`: split on whitespace runs, dropping empties. -/
def pySplitWs (s : String) : List String :=
  splitWsAux s.data []

/-- Python `shlex.split(line)`, modelled for inputs free of quoting and
escaping, on which it agrees with whitespace splitting. -/
def shlexSplit (s : String) : List String :=
  pySplitWs s

/-- Python `os.path.join(a, b)` (POSIX): an absolute `b` discards `a`. -/
def pathJoin (a b : String) : String :=
  if b.data.head? = some '/' then b
  else if a = "" || a.data.getLast? = some '/' then a ++ b
  else a ++ "/" ++ b

/-- Result of `apply_kexec`: `noop` models `return False` from the mode
gate; `noMenuEntry`/`noKernel` model the soft failures (`LOG.error` +
`return False`); `staged` models the successful `kexec -l` invocation and
`return True`, carrying the three argument strings built at
`install.py:359-363`. -/
inductive KexecResult where
  | noop
  | noMenuEntry
  | noKernel
  | staged (kernel : String) (append : String) (initrd : String)
deriving DecidableEq

/-- Source `install.py:356-363`: the scan of the default entry body.  Each
line whose whitespace tokens contain `linux` overwrites kernel and append
(so the LAST such directive in the range wins); likewise for `initrd`.
`split_line[1]` on a directive with no argument raises IndexError. -/
def scanEntry (target : String) :
    List String → String → String → String →
    Except PyErr (String × String × String)
  | [], kernel, append, initrd => .ok (kernel, append, initrd)
  | line :: rest, kernel, append, initrd =>
    let step1 : Except PyErr (String × String) :=
      if (pySplitWs line).contains "linux" then
        match shlexSplit line with
        | _ :: k1 :: args => .ok (pathJoin target k1, "--append=" ++ " ".intercalate args)
        | _ => .error (.indexError "list index out of range")
      else .ok (kernel, append)
    match step1 with
    | .error e => .error e
    | .ok (kernel, append) =>
      let step2 : Except PyErr String :=
        if (pySplitWs line).contains "initrd" then
          match shlexSplit line with
          | _ :: i1 :: _ => .ok ("--initrd=" ++ pathJoin target i1)
          | _ => .error (.indexError "list index out of range")
        else .ok initrd
      match step2 with
      | .error e => .error e
      | .ok initrd => scanEntry target rest kernel append initrd

/-- Source `install.py:329-371`: the grub-config scan of `apply_kexec`.
`lines` is `fp.readlines()` (each element carries its trailing newline).
`menu_lines[default]` and `menu_lines[default + 1]` are Python list
indexing: out of range raises IndexError. -/
def parseGrub (target : String) (lines : List String) : Except PyErr KexecResult :=
  let default := findDefault lines
  let menu := menuLines lines
  if menu.isEmpty then .ok .noMenuEntry
  else
    match menu.get? default with
    | none => .error (.indexError "list index out of range")
    | some b =>
      -- if begin != menu_lines[-1]: end = menu_lines[default + 1] - 1
      -- else: end = line_num  (the total number of lines)
      let endE : Except PyErr Nat :=
        if b ≠ (menu.getLast?.getD 0) then
          match menu.get? (default + 1) with
          | none => .error (.indexError "list index out of range")
          | some nxt => .ok (nxt - 1)
        else .ok lines.length
      match endE with
      | .error e => .error e
      | .ok e =>
        -- for i in range(begin, end): scan lines[i]
        match scanEntry target ((lines.drop b).take (e - b)) "" "" "" with
        | .error pe => .error pe
        | .ok (kernel, append, initrd) =>
          if kernel = "" then .ok .noKernel
          else .ok (.staged kernel append initrd)

/-- Python `kexec.get("mode")` as evaluated on an arbitrary value: only a
dict has a `get` attribute; any other value raises AttributeError. -/
def pyGetAttrGet (v : JVal) (key : String) : Except PyErr (Option JVal) :=
  match v with
  | .dict kvs => .ok (dictGet kvs key)
  | _ => .error (.attributeError "object has no attribute get")

/-- Source `install.py:308-371`, `apply_kexec(kexec, target)`.  The gate
`kexec is None or kexec.get("mode") != "on"` runs BEFORE the isinstance
check, so a non-dict value raises AttributeError from `.get` and the
`raise TypeError("kexec is not a dict.")` at line 321 is unreachable.
`grubcfgExists` is `os.path.isfile(target_grubcfg)`; `lines` is the file
content. -/
def apply_kexec (kexec : Option JVal) (target : String) (grubcfgExists : Bool)
    (lines : List String) : Except PyErr KexecResult :=
  match kexec with
  | none => .ok .noop
  | some kv =>
    match pyGetAttrGet kv "mode" with
    | .error e => .error e
    | .ok mode =>
      if (match mode with
          | some m => !pyEqStr m "on"
          | none => true) then .ok .noop
      else if !kv.isDict then .error (.typeError "kexec is not a dict.")
      else if !grubcfgExists then
        .error (.valueError "boot/grub/grub.cfg does not exist in target")
      else parseGrub target lines

/-- Python `cfg.get(key, {})` followed by use as a dict (the config built
by `cmd_install` always holds dicts under these keys, starting from
`CONFIG_BUILTIN`). -/
def getDictD (cfg : List (String × JVal)) (key : String) : List (String × JVal) :=
  match dictGet cfg key with
  | some (.dict kvs) => kvs
  | _ => []

/-- Source `install.py:452`: `cfg.get('stages')` — a list of stage names
(`CONFIG_BUILTIN` guarantees the key holds a list). -/
def stagesOf (cfg : List (String × JVal)) : List String :=
  match dictGet cfg "stages" with
  | some (.list vs) => vs.map pyStr
  | _ => []

/-- Source `install.py:460-462`: `cfg.get('%s_commands' % name, {})`. -/
def commandsOfCfg (cfg : List (String × JVal)) (name : String) :
    List (String × JVal) :=
  getDictD cfg (name ++ "_commands")

/-- An exception escaping the `try` block of `cmd_install`: either a
Python-level error or a `util.ProcessExecutionError` from a stage. -/
inductive InstallErr where
  | py (e : PyErr)
  | proc (e : PEErr)

/-- Observable actions of `cmd_install` (source `install.py:441-516`),
recorded in execution order. -/
inductive InstallEvent where
  | ranCmd (stage : String) (cmd : String)
  | wrotePassBanner
  | reportSuccess
  | wroteFailBanner
  | reportFailure
  | errorArchive
  | copyLog
  | skipUnmountDisabled
  | umountTarget
  | restartIscsiService
  | zpoolExport (pool : String)
  | rmtreeTop
  | applyPowerState
deriving DecidableEq

/-- Oracles for the effectful collaborators of `cmd_install`: the
per-command process results, whether `WorkingDir` construction succeeds,
the number of dd images found by `util.get_dd_images`, whether the
storage config has iSCSI volumes (`iscsi.get_iscsi_disks_from_config`),
the ZFS pools in the config (`zfs.get_zpool_from_config`), and the target
grub config contents used by `apply_kexec`. -/
structure InstallEnv where
  ex : String → String → JVal → ExecResult
  workingDirOk : Bool
  ddImagesCount : Nat
  hasIscsiDisks : Bool
  zpools : List String
  grubcfgExists : Bool
  grubLines : List String

/-- Source `install.py:442-471`, the `try` block of `cmd_install`:
construct the WorkingDir, reject multiple disk images, run every stage in
order, then attempt `apply_kexec` (on success of which the configured
power state is overridden with an immediate reboot), and finally write
the pass banner and report success.  Returns the event trace of the block
together with either the escaping exception or the (possibly updated)
config. -/
def tryPhase (cfg : List (String × JVal)) (env : InstallEnv) :
    List InstallEvent × Except InstallErr (List (String × JVal)) :=
  if env.workingDirOk = false then
    ([], .error (.py (.valueError "Unable to create target directory")))
  else if 1 < env.ddImagesCount then
    ([], .error (.py (.valueError "You may not use more than one disk image")))
  else
    let r := runStages env.ex (commandsOfCfg cfg) (stagesOf cfg)
    let trE := r.1.map (fun sc => InstallEvent.ranCmd sc.1 sc.2)
    match r.2 with
    | some err => (trE, .error (.proc err))
    | none =>
      match apply_kexec (dictGet cfg "kexec") "/tmp/tmpwd/target"
              env.grubcfgExists env.grubLines with
      | .error pe => (trE, .error (.py pe))
      | .ok kres =>
        let cfg2 :=
          match kres with
          | .staged _ _ _ =>
            setKey cfg "power_state"
              (.dict [("mode", .str "reboot"), ("delay", .str "now"),
                      ("message", .str "rebooting with kexec")])
          | _ => cfg
        (trE ++ [.wrotePassBanner, .reportSuccess], .ok cfg2)

/-- Source `install.py:472-479`, the `except` block: write the failure
banner, report failure, and create the error archive when an error
tarfile is configured. -/
def failEvents (cfg : List (String × JVal)) : List InstallEvent :=
  [.wroteFailBanner, .reportFailure]
    ++ (if truthy ((dictGet (getDictD cfg "install") "error_tarfile").getD .null)
        then [.errorArchive] else [])

/-- Source `install.py:480-512`, the `finally` block: copy the install log
into the target when a save path is configured and the WorkingDir was
constructed; then either skip unmounting (config disabled it) or, when
the WorkingDir was constructed, recursively unmount the target, restart
the iSCSI service when the config has iSCSI volumes, export every ZFS
pool of the config, and remove the temporary root. -/
def finallyPhase (cfg : List (String × JVal)) (env : InstallEnv) :
    List InstallEvent :=
  let instcfg := getDictD cfg "install"
  let logTarget := (dictGet instcfg "save_install_log").getD (.str "/root/curtin-install.log")
  (if truthy logTarget && env.workingDirOk then [.copyLog] else [])
    ++ (if pyEqStr ((dictGet instcfg "unmount").getD (.str "")) "disabled" then
          [.skipUnmountDisabled]
        else if env.workingDirOk then
          [.umountTarget]
            ++ (if env.hasIscsiDisks then [.restartIscsiService] else [])
            ++ env.zpools.map InstallEvent.zpoolExport
            ++ [.rmtreeTop]
        else [])

/-- Source `install.py:441-516`, `cmd_install` from the `try` statement
on: the `finally` block always runs; an exception from the `try` block is
re-raised after it (the `raise e` at line 479 followed by the `finally`),
while on success `apply_power_state` runs after cleanup and the process
exits 0. -/
def cmdInstall (cfg : List (String × JVal)) (env : InstallEnv) :
    List InstallEvent × Except InstallErr Unit :=
  let r := tryPhase cfg env
  match r.2 with
  | .error e => (r.1 ++ failEvents cfg ++ finallyPhase cfg env, .error e)
  | .ok _ => (r.1 ++ finallyPhase cfg env ++ [.applyPowerState], .ok ())

/-- A grub configuration with two menuentry blocks whose `set default`
line selects entry 1 (the second block), as in the specification's
round-trip example.  Lines carry their trailing newline, as
`fp.readlines()` yields them. -/
def grubTwoEntries : List String :=
  [ "set default=\"1\"\n",
    "menuentry A\n",
    "linux boot/vmlinuz-A optA\n",
    "initrd boot/initrd-A\n",
    "menuentry B\n",
    "linux boot/vmlinuz-B optB\n",
    "initrd boot/initrd-B\n" ]

/-- Concrete stage configuration for exercising the stage runner: stage
`early` has commands `a` and `b`, stage `late` has command `z`. -/
def c2commandsOf : String → List (String × JVal) := fun s =>
  if s = "early" then [("a", .str "cmdA"), ("b", .str "cmdB")]
  else if s = "late" then [("z", .str "cmdZ")] else []

/-- Concrete execution oracle: command `b` of stage `early` exits 2 with
output `boom`; everything else succeeds. -/
def c2ex : String → String → JVal → ExecResult := fun s k _ =>
  if s = "early" && k = "b" then .finished "boom" 2 else .finished "ok" 0

/-- Concrete stage configuration with an unsorted command dict and one
falsy command (`a` is bound to an empty list, hence skipped). -/
def c9commandsOf : String → List (String × JVal) := fun s =>
  if s = "early" then [("b", .str "x"), ("a", .list []), ("c", .str "y")] else []

/-- Concrete execution oracle where every command succeeds. -/
def c9ex : String → String → JVal → ExecResult := fun _ _ _ => .finished "" 0

/-- Concrete install config: one stage with one failing command. -/
def c3cfg : List (String × JVal) :=
  [("stages", .list [.str "early"]),
   ("early_commands", .dict [("cmd", .str "run")])]

/-- Concrete install environment: the stage command exits 1, the working
directory is constructed, the storage config has iSCSI volumes and one
ZFS pool. -/
def c3env : InstallEnv :=
  { ex := fun _ _ _ => .finished "boom" 1
    workingDirOk := true
    ddImagesCount := 0
    hasIscsiDisks := true
    zpools := ["rpool"]
    grubcfgExists := false
    grubLines := [] }

/-- The working directory produced by `WorkingDir.init` on an empty config
with a fresh empty target. -/
def c4wd : WorkingDir :=
  { top := "/tmp/tmpwd"
    scratch := "/tmp/tmpwd/scratch"
    target := "/tmp/tmpwd/target"
    interfaces := "/tmp/tmpwd/state/interfaces"
    netconf := "/tmp/tmpwd/state/network_config"
    netstate := "/tmp/tmpwd/state/network_state"
    fstab := "/tmp/tmpwd/state/fstab"
    config_file := "/tmp/tmpwd/state/config"
    created := ["/tmp/tmpwd/state/config", "/tmp/tmpwd/state/fstab",
                "/tmp/tmpwd/state/network_config", "/tmp/tmpwd/state/network_state"] }

/- ===================== Lemmas and theorems ===================== -/

mutual

/-- Python `==` is reflexive on configuration values. -/
theorem pyEq_refl : ∀ v : JVal, pyEq v v = true
  | .null => rfl
  | .bool b => by simp [pyEq]
  | .int n => by simp [pyEq]
  | .str s => by simp [pyEq]
  | .list xs => by simp [pyEq, pyEqL_refl xs]
  | .dict kvs => by simp [pyEq, pyEqD_refl kvs]

/-- Elementwise Python `==` is reflexive. -/
theorem pyEqL_refl : ∀ xs : List JVal, pyEqL xs xs = true
  | [] => rfl
  | x :: xs => by simp [pyEqL, pyEq_refl x, pyEqL_refl xs]

/-- Dict Python `==` is reflexive. -/
theorem pyEqD_refl : ∀ kvs : List (String × JVal), pyEqD kvs kvs = true
  | [] => rfl
  | (k, v) :: kvs => by simp [pyEqD, pyEq_refl v, pyEqD_refl kvs]

end

theorem dictGet_setKey_self (kvs : List (String × JVal)) (k : String) (v : JVal) :
    dictGet (setKey kvs k v) k = some v := by
  induction kvs with
  | nil => simp [setKey, dictGet]
  | cons kv rest ih =>
    by_cases h : kv.1 = k
    · simp [setKey, h, dictGet]
    · simp [setKey, h, dictGet, ih]

theorem dictGet_setKey_ne (kvs : List (String × JVal)) (k k' : String) (v : JVal)
    (h : k' ≠ k) : dictGet (setKey kvs k v) k' = dictGet kvs k' := by
  have hkk : k ≠ k' := fun he => h he.symm
  induction kvs with
  | nil => simp [setKey, dictGet, hkk]
  | cons kv rest ih =>
    by_cases hk : kv.1 = k
    · have hne : kv.1 ≠ k' := by rw [hk]; exact hkk
      simp [setKey, hk, dictGet, hkk, hne]
    · by_cases hk' : kv.1 = k'
      · simp [setKey, hk, dictGet, hk', h]
      · simp [setKey, hk, dictGet, hk', ih]

theorem dictGet_delKey_self (kvs : List (String × JVal)) (k : String) :
    dictGet (delKey kvs k) k = none := by
  induction kvs with
  | nil => simp [delKey, dictGet]
  | cons kv rest ih =>
    by_cases h : kv.1 = k
    · simpa [delKey, List.filter_cons, h] using ih
    · simpa [delKey, List.filter_cons, h, dictGet] using ih

theorem dictGet_delKey_ne (kvs : List (String × JVal)) (k k' : String)
    (h : k' ≠ k) : dictGet (delKey kvs k) k' = dictGet kvs k' := by
  have hkn : k ≠ k' := fun he => h he.symm
  induction kvs with
  | nil => simp [delKey, dictGet]
  | cons kv rest ih =>
    by_cases hk : kv.1 = k
    · have hne : kv.1 ≠ k' := by rw [hk]; exact hkn
      simpa [delKey, List.filter_cons, hk, dictGet, hne, hkn] using ih
    · by_cases hk' : kv.1 = k'
      · simp [delKey, List.filter_cons, hk, dictGet, hk', h]
      · simpa [delKey, List.filter_cons, hk, dictGet, hk'] using ih

theorem ltCh_trans : ∀ as bs cs : List Char,
    ltCh as bs = true → ltCh bs cs = true → ltCh as cs = true
  | [], [], [] => fun h _ => by cases h
  | [], [], _ :: _ => fun _ _ => rfl
  | [], _ :: _, [] => fun _ h => by cases h
  | [], _ :: _, _ :: _ => fun _ _ => rfl
  | _ :: _, [], _ => fun h _ => by cases h
  | _ :: _, _ :: _, [] => fun _ h => by cases h
  | a :: as, b :: bs, c :: cs => fun h1 h2 => by
    simp only [ltCh] at h1 h2 ⊢
    by_cases hab : a.toNat < b.toNat <;> by_cases hbc : b.toNat < c.toNat <;>
      simp [hab, hbc] at h1 h2 ⊢
    · exact Or.inl (Nat.lt_trans hab hbc)
    · exact Or.inl (by omega)
    · exact Or.inl (by omega)
    · rcases h1 with ⟨hle1, hlt1⟩
      rcases h2 with ⟨hle2, hlt2⟩
      exact Or.inr ⟨by omega, ltCh_trans as bs cs hlt1 hlt2⟩

theorem ltCh_conn : ∀ as bs : List Char,
    ltCh as bs = false → ltCh bs as = false → as = bs
  | [], [] => fun _ _ => rfl
  | [], _ :: _ => fun h _ => by cases h
  | _ :: _, [] => fun _ h => by cases h
  | a :: as, b :: bs => fun h1 h2 => by
    simp only [ltCh] at h1 h2
    by_cases hab : a.toNat < b.toNat
    · simp [hab] at h1
    · by_cases hba : b.toNat < a.toNat
      · simp [hab, hba] at h2
      · simp [hab, hba] at h1 h2
        have hab2 : a = b := by
          have hn : a.toNat = b.toNat := by omega
          have := congrArg Char.ofNat hn
          simpa [Char.ofNat_toNat] using this
        rw [hab2, ltCh_conn as bs h1 h2]

theorem keyLe_total (a b : String) : keyLe a b = true ∨ keyLe b a = true := by
  by_cases h1 : ltCh b.data a.data = true
  · right
    by_cases h2 : ltCh a.data b.data = true
    · exfalso
      have h3 := ltCh_trans _ _ _ h1 h2
      have h4 : ltCh b.data b.data = false := by
        clear h1 h2 h3
        induction b.data with
        | nil => rfl
        | cons c cs ih => simp [ltCh, ih]
      rw [h3] at h4; cases h4
    · simp [keyLe, h2]
  · left; simp [keyLe, h1]

theorem keyLe_trans (a b c : String) (h1 : keyLe a b = true) (h2 : keyLe b c = true) :
    keyLe a c = true := by
  simp only [keyLe, Bool.not_eq_true'] at h1 h2 ⊢
  by_cases hca : ltCh c.data a.data = true
  · by_cases hbc : ltCh b.data c.data = true
    · have := ltCh_trans _ _ _ hbc hca
      rw [this] at h1; cases h1
    · have heq := ltCh_conn _ _ h2 (by simpa using hbc)
      rw [← heq] at h1
      rw [h1] at hca; cases hca
  · simpa using hca

theorem keyLt_of_keyLe_ne (a b : String) (h1 : keyLe a b = true) (h2 : a ≠ b) :
    keyLt a b = true := by
  simp only [keyLe, Bool.not_eq_true'] at h1
  by_cases h3 : ltCh a.data b.data = true
  · exact h3
  · exfalso
    have heq := ltCh_conn _ _ (by simpa using h3) h1
    apply h2
    cases a with
    | mk da =>
      cases b with
      | mk db =>
        have hd : da = db := heq
        rw [hd]

theorem sortKeys_sorted (cmds : List (String × JVal)) :
    List.Sorted (fun a b => keyLe a b = true) (sortKeys cmds) :=
  @List.sorted_insertionSort String (fun a b => keyLe a b = true) _
    ⟨keyLe_total⟩ ⟨keyLe_trans⟩ (cmds.map Prod.fst)

theorem sortKeys_nodup (cmds : List (String × JVal))
    (h : (cmds.map Prod.fst).Nodup) : (sortKeys cmds).Nodup :=
  ((List.perm_insertionSort _ (cmds.map Prod.fst)).nodup_iff).mpr h

/-- Characterization of `runCmdsFrom` when every active command in the key
list succeeds: all active keys run, in order, and no error is raised. -/
theorem runCmdsFrom_ok (ex : String → JVal → ExecResult)
    (cmds : List (String × JVal)) (ks : List String)
    (h : ∀ k ∈ ks, activePred cmds k = true → cmdOk ex cmds k) :
    runCmdsFrom ex cmds ks = (ks.filter (activePred cmds), none) := by
  induction ks with
  | nil => rfl
  | cons k ks ih =>
    have hk := h k (by simp)
    have hrest := ih (fun k' hm => h k' (by simp [hm]))
    cases hd : dictGet cmds k with
    | none =>
      have hap : activePred cmds k = false := by simp [activePred, hd]
      simp [runCmdsFrom, hd, List.filter_cons, hap, hrest]
    | some cmd =>
      cases ht : truthy cmd with
      | false =>
        have hap : activePred cmds k = false := by simp [activePred, hd, ht]
        simp [runCmdsFrom, hd, ht, List.filter_cons, hap, hrest]
      | true =>
        have hap : activePred cmds k = true := by simp [activePred, hd, ht]
        obtain ⟨out, hout⟩ := hk hap cmd hd ht
        simp [runCmdsFrom, hd, ht, hout, List.filter_cons, hap, hrest]

/-- Characterization of `runCmdsFrom` at the first failing command: the
trace is the active prefix followed by the failing command, and the raised
error carries the failing command, its full output and its exit code. -/
theorem runCmdsFrom_fail (ex : String → JVal → ExecResult)
    (cmds : List (String × JVal)) (ks₁ : List String) (k₀ : String)
    (ks₂ : List String) (cmd₀ : JVal) (out : String) (rc : Int)
    (hpre : ∀ k ∈ ks₁, activePred cmds k = true → cmdOk ex cmds k)
    (hcmd : dictGet cmds k₀ = some cmd₀) (ht : truthy cmd₀ = true)
    (hex : ex k₀ cmd₀ = .finished out rc) (hrc : rc ≠ 0) :
    runCmdsFrom ex cmds (ks₁ ++ k₀ :: ks₂) =
      (ks₁.filter (activePred cmds) ++ [k₀],
       some { cmd := cmd₀, stdout := some out, stderr := some "",
              exit_code := some rc, reason := none }) := by
  induction ks₁ with
  | nil => simp [runCmdsFrom, hcmd, ht, hex, hrc]
  | cons k ks ih =>
    have hk := hpre k (by simp)
    have hrest := ih (fun k' hm => hpre k' (by simp [hm]))
    cases hd : dictGet cmds k with
    | none =>
      have hap : activePred cmds k = false := by simp [activePred, hd]
      simp [runCmdsFrom, hd, List.filter_cons, hap, hrest]
    | some cmd =>
      cases ht' : truthy cmd with
      | false =>
        have hap : activePred cmds k = false := by simp [activePred, hd, ht']
        simp [runCmdsFrom, hd, ht', List.filter_cons, hap, hrest]
      | true =>
        have hap : activePred cmds k = true := by simp [activePred, hd, ht']
        obtain ⟨out', hout⟩ := hk hap cmd hd ht'
        simp [runCmdsFrom, hd, ht', hout, List.filter_cons, hap, hrest]

/-- A stage whose active commands all succeed runs exactly its active keys
in sorted order. -/
theorem runStage_ok (ex : String → JVal → ExecResult)
    (cmds : List (String × JVal))
    (h : ∀ k, activePred cmds k = true → cmdOk ex cmds k) :
    runStage ex cmds = (activeKeys cmds, none) :=
  runCmdsFrom_ok ex cmds (sortKeys cmds) (fun k _ => h k)

/-- When every active command of every stage succeeds, the stage loop runs
exactly the planned sequence and reports no error. -/
theorem runStages_ok (ex : String → String → JVal → ExecResult)
    (commandsOf : String → List (String × JVal)) (stages : List String)
    (h : ∀ s ∈ stages, ∀ k, activePred (commandsOf s) k = true →
      cmdOk (ex s) (commandsOf s) k) :
    runStages ex commandsOf stages = (planned commandsOf stages, none) := by
  induction stages with
  | nil => rfl
  | cons s rest ih =>
    have hs := runStage_ok (ex s) (commandsOf s) (h s (by simp))
    have hrest := ih (fun s' hm => h s' (by simp [hm]))
    simp [runStages, hs, hrest, planned]

/-- Membership in the planned sequence forces the command to be an active
key of its stage. -/
theorem planned_mem (commandsOf : String → List (String × JVal))
    (L : List String) (s k : String)
    (h : (s, k) ∈ planned commandsOf L) : k ∈ activeKeys (commandsOf s) := by
  induction L with
  | nil => cases h
  | cons s' rest ih =>
    simp only [planned, List.mem_append, List.mem_map] at h
    rcases h with ⟨a, ha, hak⟩ | h
    · obtain ⟨h1, h2⟩ := Prod.mk.injEq .. ▸ hak
      rw [h1, h2] at ha
      exact ha
    · exact ih h

/-- C1: after a successful proxy migration the top-level `http_proxy` key
is absent and `proxy` is a dictionary; when the legacy `http_proxy` (X,
set, i.e. truthy) and `proxy.http_proxy` (Y) are both present and X
differs from Y, the existing Y is kept and the warning is logged; when X
equals Y or `proxy.http_proxy` is absent, the migrated `proxy.http_proxy`
equals X and no warning is logged. -/
theorem C1_proxy_migration (cfg cfg' : List (String × JVal)) (warned : Bool)
    (hok : migrate_proxy_settings cfg = .ok (cfg', warned)) :
    (dictGet cfg' "http_proxy" = none ∧
     ∃ pkvs, dictGet cfg' "proxy" = some (.dict pkvs)) ∧
    (∀ X, dictGet cfg "http_proxy" = some X → truthy X = true →
      ((∀ Y, proxyHttp cfg = some Y → pyEq Y X = false →
          proxyHttp cfg' = some Y ∧ warned = true) ∧
       (∀ Y, proxyHttp cfg = some Y → pyEq Y X = true →
          proxyHttp cfg' = some X ∧ warned = false) ∧
       (proxyHttp cfg = none → proxyHttp cfg' = some X ∧ warned = false))) := by
  have hne : ("http_proxy" : String) ≠ "proxy" := by decide
  cases hP : (dictGet cfg "proxy").getD (.dict []) with
  | null => simp [migrate_proxy_settings, hP] at hok
  | bool b => simp [migrate_proxy_settings, hP] at hok
  | int n => simp [migrate_proxy_settings, hP] at hok
  | str s => simp [migrate_proxy_settings, hP] at hok
  | list xs => simp [migrate_proxy_settings, hP] at hok
  | dict pkvs =>
    have hProxyEq : proxyHttp cfg = dictGet pkvs "http_proxy" := by
      cases hPP : dictGet cfg "proxy" with
      | none =>
        rw [hPP] at hP
        simp only [Option.getD_none] at hP
        cases hP
        simp [proxyHttp, hPP, dictGet]
      | some v =>
        rw [hPP] at hP
        simp only [Option.getD_some] at hP
        cases hP
        simp [proxyHttp, hPP]
    cases hHP : dictGet cfg "http_proxy" with
    | none =>
      simp only [migrate_proxy_settings, hP, hHP] at hok
      obtain ⟨h1, h2⟩ := Prod.mk.injEq .. ▸ (Except.ok.injEq .. ▸ hok)
      subst h1; subst h2
      refine ⟨⟨?_, pkvs, dictGet_setKey_self ..⟩, ?_⟩
      · rw [dictGet_setKey_ne _ _ _ _ hne, hHP]
      · intro X hX
        exact absurd hX (by simp)
    | some hp =>
      cases hT : truthy hp with
      | false =>
        simp only [migrate_proxy_settings, hP, hHP, hT, Bool.false_eq_true,
          if_false] at hok
        obtain ⟨h1, h2⟩ := Prod.mk.injEq .. ▸ (Except.ok.injEq .. ▸ hok)
        subst h1; subst h2
        refine ⟨⟨?_, pkvs, dictGet_setKey_self ..⟩, ?_⟩
        · rw [dictGet_setKey_ne _ _ _ _ hne, dictGet_delKey_self]
        · intro X hX hTX
          cases hX
          rw [hT] at hTX; exact Bool.noConfusion hTX
      | true =>
        cases hC : pyEq ((dictGet pkvs "http_proxy").getD hp) hp with
        | false =>
          simp only [migrate_proxy_settings, hP, hHP, hT, if_true, hC] at hok
          obtain ⟨h1, h2⟩ := Prod.mk.injEq .. ▸ (Except.ok.injEq .. ▸ hok)
          subst h1; subst h2
          refine ⟨⟨?_, pkvs, dictGet_setKey_self ..⟩, ?_⟩
          · rw [dictGet_setKey_ne _ _ _ _ hne, dictGet_delKey_self]
          · intro X hX hTX
            cases hX
            have hout : proxyHttp (setKey (delKey cfg "http_proxy") "proxy" (.dict pkvs))
                = dictGet pkvs "http_proxy" := by
              simp [proxyHttp, dictGet_setKey_self]
            refine ⟨?_, ?_, ?_⟩
            · intro Y hY hYX
              rw [hProxyEq] at hY
              exact ⟨by rw [hout, hY], rfl⟩
            · intro Y hY hYX
              rw [hProxyEq] at hY
              rw [hY, Option.getD_some] at hC
              rw [hYX] at hC; cases hC
            · intro hNone
              rw [hProxyEq] at hNone
              rw [hNone, Option.getD_none, pyEq_refl] at hC
              cases hC
        | true =>
          simp only [migrate_proxy_settings, hP, hHP, hT, if_true, hC,
            Bool.true_eq_false, if_false] at hok
          obtain ⟨h1, h2⟩ := Prod.mk.injEq .. ▸ (Except.ok.injEq .. ▸ hok)
          subst h1; subst h2
          refine ⟨⟨?_, _, dictGet_setKey_self ..⟩, ?_⟩
          · rw [dictGet_setKey_ne _ _ _ _ hne, dictGet_delKey_self]
          · intro X hX hTX
            cases hX
            have hout : proxyHttp (setKey (delKey cfg "http_proxy") "proxy"
                  (.dict (setKey pkvs "http_proxy" hp))) = some hp := by
              simp [proxyHttp, dictGet_setKey_self]
            refine ⟨?_, ?_, ?_⟩
            · intro Y hY hYX
              rw [hProxyEq] at hY
              rw [hY, Option.getD_some] at hC
              rw [hYX] at hC; cases hC
            · intro Y hY hYX
              exact ⟨hout, rfl⟩
            · intro hNone
              exact ⟨hout, rfl⟩

/-- Witness for C1: a config with legacy `http_proxy="hx"` and
`proxy.http_proxy="hy"` migrates keeping `"hy"`, with the legacy key
removed and the warning logged. -/
theorem C1_proxy_migration_witness :
    proxyHttp [("proxy", JVal.dict [("http_proxy", JVal.str "hy")])]
      = some (.str "hy") ∧
    dictGet [("proxy", JVal.dict [("http_proxy", JVal.str "hy")])] "http_proxy"
      = none := by
  have h := C1_proxy_migration
    [("http_proxy", JVal.str "hx"), ("proxy", JVal.dict [("http_proxy", JVal.str "hy")])]
    [("proxy", JVal.dict [("http_proxy", JVal.str "hy")])] true (by rfl)
  refine ⟨?_, h.1.1⟩
  exact ((h.2 (.str "hx") rfl rfl).1 (.str "hy") rfl (by decide)).1

/-- C2: when the commands before `k₀` (in execution order) succeed and
`k₀` exits with nonzero code `rc`, the stage loop stops at `k₀`: the
raised `ProcessExecutionError` carries the full captured output and the
exit code of `k₀`, and the trace is exactly the successful prefix followed
by `k₀` — no later command of the stage (`ks₂`) and no command of any
later stage (`ss₂`) executes. -/
theorem C2_stage_failure_aborts
    (ex : String → String → JVal → ExecResult)
    (commandsOf : String → List (String × JVal))
    (ss₁ : List String) (s₀ : String) (ss₂ : List String)
    (ks₁ : List String) (k₀ : String) (ks₂ : List String)
    (cmd₀ : JVal) (out : String) (rc : Int)
    (hsplit : sortKeys (commandsOf s₀) = ks₁ ++ k₀ :: ks₂)
    (hpre : ∀ s ∈ ss₁, ∀ k, activePred (commandsOf s) k = true →
      cmdOk (ex s) (commandsOf s) k)
    (hpre₀ : ∀ k ∈ ks₁, activePred (commandsOf s₀) k = true →
      cmdOk (ex s₀) (commandsOf s₀) k)
    (hcmd : dictGet (commandsOf s₀) k₀ = some cmd₀)
    (ht : truthy cmd₀ = true)
    (hex : ex s₀ k₀ cmd₀ = .finished out rc)
    (hrc : rc ≠ 0) :
    runStages ex commandsOf (ss₁ ++ s₀ :: ss₂) =
      (planned commandsOf ss₁
         ++ (ks₁.filter (activePred (commandsOf s₀))).map (fun k => (s₀, k))
         ++ [(s₀, k₀)],
       some { cmd := cmd₀, stdout := some out, stderr := some "",
              exit_code := some rc, reason := none }) := by
  induction ss₁ with
  | nil =>
    have hstage : runStage (ex s₀) (commandsOf s₀) =
        (ks₁.filter (activePred (commandsOf s₀)) ++ [k₀],
         some { cmd := cmd₀, stdout := some out, stderr := some "",
                exit_code := some rc, reason := none }) := by
      rw [runStage, hsplit]
      exact runCmdsFrom_fail _ _ _ _ _ _ _ _ hpre₀ hcmd ht hex hrc
    simp [runStages, hstage, planned]
  | cons s ss ih =>
    have hs := runStage_ok (ex s) (commandsOf s) (hpre s (by simp))
    have hrest := ih (fun s' hm => hpre s' (by simp [hm]))
    simp [runStages, hs, hrest, planned]

/-- Witness for C2: with stages `early` then `late`, where `early.b` exits
2 after `early.a` succeeds, execution stops at `early.b`, the error holds
output `boom` and exit code 2, and neither later command runs. -/
theorem C2_stage_failure_aborts_witness :
    runStages c2ex c2commandsOf ["early", "late"] =
      ([("early", "a"), ("early", "b")],
       some { cmd := .str "cmdB", stdout := some "boom", stderr := some "",
              exit_code := some 2, reason := none }) := by
  have h := C2_stage_failure_aborts c2ex c2commandsOf [] "early" ["late"]
    ["a"] "b" [] (.str "cmdB") "boom" 2
    (by rfl)
    (by intro s hs; cases hs)
    (by
      intro k hk hap cmd hcmd htr
      simp at hk
      subst hk
      exact ⟨"ok", rfl⟩)
    (by rfl)
    (by rfl)
    (by rfl)
    (by decide)
  exact h

/-- C9: when every active command succeeds, stages run in exactly the
listed order with the planned per-stage command sequences; within each
stage the executed command names are strictly ascending lexicographically;
and a command name bound to a falsy value never appears in the executed
sequence. -/
theorem C9_command_order
    (ex : String → String → JVal → ExecResult)
    (commandsOf : String → List (String × JVal)) (stages : List String)
    (hnodup : ∀ s ∈ stages, ((commandsOf s).map Prod.fst).Nodup)
    (hok : ∀ s ∈ stages, ∀ k, activePred (commandsOf s) k = true →
      cmdOk (ex s) (commandsOf s) k) :
    runStages ex commandsOf stages = (planned commandsOf stages, none) ∧
    (∀ s ∈ stages,
      List.Sorted (fun a b => keyLt a b = true) (activeKeys (commandsOf s))) ∧
    (∀ s ∈ stages, ∀ k v, dictGet (commandsOf s) k = some v →
      truthy v = false → (s, k) ∉ planned commandsOf stages) := by
  refine ⟨runStages_ok ex commandsOf stages hok, ?_, ?_⟩
  · intro s hs
    have h1 := sortKeys_sorted (commandsOf s)
    have h2 := sortKeys_nodup (commandsOf s) (hnodup s hs)
    have h3 : List.Pairwise (fun a b => keyLe a b = true)
        (activeKeys (commandsOf s)) := h1.filter _
    have h4 : (activeKeys (commandsOf s)).Nodup := h2.filter _
    exact (h3.and h4).imp (fun hx => keyLt_of_keyLe_ne _ _ hx.1 hx.2)
  · intro s hs k v hv htv hmem
    have hk := planned_mem commandsOf stages s k hmem
    have hap : activePred (commandsOf s) k = true := (List.mem_filter.mp hk).2
    simp [activePred, hv, htv] at hap

/-- Witness for C9: an unsorted command dict `b, a, c` with `a` falsy runs
exactly `b` then `c`, and the skipped `a` is absent from the executed
sequence. -/
theorem C9_command_order_witness :
    runStages c9ex c9commandsOf ["early"] =
      ([("early", "b"), ("early", "c")], none) ∧
    ("early", "a") ∉ planned c9commandsOf ["early"] := by
  have h := C9_command_order c9ex c9commandsOf ["early"]
    (by intro s hs; simp at hs; subst hs; decide)
    (by intro s hs k hap cmd hcmd htr; exact ⟨"", rfl⟩)
  exact ⟨h.1, h.2.2 "early" (by simp) "a" (.list []) (by rfl) (by rfl)⟩

/-- C3: with unmounting enabled and the working directory constructed, the
cleanup sequence — recursive unmount of the target, then (when the config
has iSCSI volumes) the iSCSI service restart, then export of every ZFS
pool of the config, then removal of the temporary root — appears
contiguously, in that order, in the trace of every install attempt
(success or failure, since the `finally` block always runs); and on the
failure path the original exception is re-raised to the caller after this
cleanup. -/
theorem C3_cleanup_order (cfg : List (String × JVal)) (env : InstallEnv)
    (hun : pyEqStr ((dictGet (getDictD cfg "install") "unmount").getD (.str ""))
      "disabled" = false)
    (hwd : env.workingDirOk = true) :
    List.IsInfix
      ([InstallEvent.umountTarget]
        ++ (if env.hasIscsiDisks then [InstallEvent.restartIscsiService] else [])
        ++ env.zpools.map InstallEvent.zpoolExport
        ++ [InstallEvent.rmtreeTop])
      (cmdInstall cfg env).1 ∧
    (∀ e, (tryPhase cfg env).2 = .error e →
      cmdInstall cfg env =
        ((tryPhase cfg env).1 ++ failEvents cfg ++ finallyPhase cfg env, .error e)) ∧
    ((tryPhase cfg env).2.isOk = true → (cmdInstall cfg env).2 = .ok ()) := by
  have hfin : finallyPhase cfg env =
      (if truthy ((dictGet (getDictD cfg "install") "save_install_log").getD
            (.str "/root/curtin-install.log")) && env.workingDirOk
       then [InstallEvent.copyLog] else [])
      ++ ([InstallEvent.umountTarget]
          ++ (if env.hasIscsiDisks then [InstallEvent.restartIscsiService] else [])
          ++ env.zpools.map InstallEvent.zpoolExport
          ++ [InstallEvent.rmtreeTop]) := by
    simp [finallyPhase, hun, hwd]
  cases hres : (tryPhase cfg env).2 with
  | error e =>
    have hcmd : cmdInstall cfg env =
        ((tryPhase cfg env).1 ++ failEvents cfg ++ finallyPhase cfg env,
         .error e) := by
      simp [cmdInstall, hres]
    refine ⟨?_, ?_, ?_⟩
    · refine List.IsSuffix.isInfix ?_
      refine ⟨(tryPhase cfg env).1 ++ failEvents cfg
        ++ (if truthy ((dictGet (getDictD cfg "install") "save_install_log").getD
              (.str "/root/curtin-install.log")) && env.workingDirOk
            then [InstallEvent.copyLog] else []), ?_⟩
      rw [hcmd, hfin]
      simp [List.append_assoc]
    · intro e' he'
      obtain rfl : e = e' := by cases he'; rfl
      exact hcmd
    · intro hok
      simp [Except.isOk, Except.toBool] at hok
  | ok cfg2 =>
    have hcmd : cmdInstall cfg env =
        ((tryPhase cfg env).1 ++ finallyPhase cfg env
           ++ [InstallEvent.applyPowerState], .ok ()) := by
      simp [cmdInstall, hres]
    refine ⟨?_, ?_, ?_⟩
    · refine ⟨(tryPhase cfg env).1
        ++ (if truthy ((dictGet (getDictD cfg "install") "save_install_log").getD
              (.str "/root/curtin-install.log")) && env.workingDirOk
            then [InstallEvent.copyLog] else []),
        [InstallEvent.applyPowerState], ?_⟩
      rw [hcmd, hfin]
      simp [List.append_assoc]
    · intro e' he'
      cases he'
    · intro _
      rw [hcmd]

/-- Witness for C3: on a failing one-stage install with iSCSI volumes and
pool `rpool`, the teardown sequence appears in order in the trace. -/
theorem C3_cleanup_order_witness :
    List.IsInfix
      [InstallEvent.umountTarget, InstallEvent.restartIscsiService,
       InstallEvent.zpoolExport "rpool", InstallEvent.rmtreeTop]
      (cmdInstall c3cfg c3env).1 := by
  have h := C3_cleanup_order c3cfg c3env (by rfl) (by rfl)
  simpa using h.1

/-- C4 counterexample: the claim says the interfaces placeholder exists
after `WorkingDir` creation, but the constructor's touch loop covers only
config, fstab, network_config and network_state — the interfaces path is
never created. -/
theorem C4_counterexample :
    ((WorkingDir.init [] true []).toOption.map
      (fun wd => wd.created.contains wd.interfaces)) = some false := by rfl

/-- C4 (amended): after `WorkingDir` creation succeeds, the placeholder
state files for the config snapshot, fstab, network config and network
state exist; the interfaces state file is NOT pre-created (only its path
is recorded; a stage command appending to it creates it on first write). -/
theorem C4_placeholder_files (cfg : List (String × JVal)) (ensureDirOk : Bool)
    (targetListing : List String) (wd : WorkingDir)
    (h : WorkingDir.init cfg ensureDirOk targetListing = .ok wd) :
    wd.config_file ∈ wd.created ∧ wd.fstab ∈ wd.created ∧
    wd.netconf ∈ wd.created ∧ wd.netstate ∈ wd.created ∧
    wd.interfaces ∉ wd.created := by
  cases hE : ensureDirOk with
  | false => rw [hE] at h; simp [WorkingDir.init] at h
  | true =>
    rw [hE] at h
    cases hL : targetListing.isEmpty with
    | false => simp [WorkingDir.init, hL] at h
    | true =>
      simp only [WorkingDir.init, hL, Bool.not_true, Bool.not_false,
        if_false, if_true, Bool.false_eq_true] at h
      rw [Except.ok.injEq] at h
      subst h
      refine ⟨?_, ?_, ?_, ?_, ?_⟩ <;> simp

/-- Witness for C4 (amended): the concrete working directory built from an
empty config has the four created files and no interfaces file. -/
theorem C4_placeholder_files_witness :
    c4wd.config_file ∈ c4wd.created ∧ c4wd.fstab ∈ c4wd.created ∧
    c4wd.netconf ∈ c4wd.created ∧ c4wd.netstate ∈ c4wd.created ∧
    c4wd.interfaces ∉ c4wd.created :=
  C4_placeholder_files [] true [] c4wd (by rfl)

/-- C5 (code bug): on a grub config with two menuentry blocks and
`set default="1"`, kexec preparation resolves the kernel, arguments and
initrd from the FIRST block, not the second as the claim (and the code's
own intent) says: the `set default` regex ends in `\b` right after the
closing quote, which can only match when a word character follows, so on
an ordinary line the assignment is never seen and `default` stays 0. -/
theorem C5_default_entry_divergence :
    apply_kexec (some (.dict [("mode", .str "on")])) "/tmp/target" true
        grubTwoEntries
      = .ok (.staged "/tmp/target/boot/vmlinuz-A" "--append=optA"
             "--initrd=/tmp/target/boot/initrd-A") ∧
    findDefault grubTwoEntries = 0 ∧
    menuLines grubTwoEntries = [2, 5] := ⟨rfl, rfl, rfl⟩

/-- C6 (code bug): the mode gate evaluates `kexec.get("mode")` BEFORE the
isinstance check, so a non-dict re-exec request raises AttributeError and
the `raise TypeError("kexec is not a dict.")` is unreachable; the no-op
half of the claim holds (absent request or mode other than "on" returns
False). -/
theorem C6_kexec_gate_divergence :
    apply_kexec (some (.str "on")) "/tmp/target" true []
      = .error (.attributeError "object has no attribute get") ∧
    apply_kexec (some (.dict [("mode", .str "off")])) "/tmp/target" true []
      = .ok .noop ∧
    apply_kexec none "/tmp/target" true [] = .ok .noop := ⟨rfl, rfl, rfl⟩

/-- C7 counterexample: copying the install log into the target is not
fully best-effort — when the write into the target fails, the error
escapes `copy_install_log` (only the unset/missing-source cases are
handled), refuting "never escalated". -/
theorem C7_counterexample :
    copy_install_log (some "/var/log/curtin/install.log") true true false
      = .error (.osError "write_file failed") := rfl

/-- C7 (amended): clearing the log swallows open/write failures (though a
failure creating the log directory, which happens outside the try block,
escapes), writing a log line never escalates, and the log copy warns and
returns when the source log is unset or missing — but an error reading
the source log or writing it into the target escalates. -/
theorem C7_best_effort_logging :
    (∀ openFails : Bool, clear_install_log false openFails = .ok ()) ∧
    (∀ (writeFails : Bool) (out : String), ∃ r, writeline writeFails out = .ok r) ∧
    (∀ b1 b2 b3 : Bool, copy_install_log none b1 b2 b3 = .ok false) ∧
    (∀ (lf : String) (b2 b3 : Bool), copy_install_log (some lf) false b2 b3 = .ok false) ∧
    (∀ openFails : Bool, clear_install_log true openFails
      = .error (.osError "ensure_dir failed")) ∧
    (∀ lf : String, lf ≠ "" → copy_install_log (some lf) true false true
      = .error (.osError "load_file failed")) ∧
    (∀ lf : String, lf ≠ "" → copy_install_log (some lf) true true false
      = .error (.osError "write_file failed")) := by
  refine ⟨fun _ => rfl, ?_, fun _ _ _ => rfl, ?_, fun _ => rfl, ?_, ?_⟩
  · intro wF out
    cases wF
    · exact ⟨_, rfl⟩
    · exact ⟨_, rfl⟩
  · intro lf b2 b3
    by_cases hlf : lf = "" <;> simp [copy_install_log, hlf]
  · intro lf hlf
    simp [copy_install_log, hlf]
  · intro lf hlf
    simp [copy_install_log, hlf]

/-- Witness for C7 (amended): a failed log-open is swallowed, while a
failed read of the source log during the copy escalates. -/
theorem C7_best_effort_logging_witness :
    clear_install_log false true = .ok () ∧
    copy_install_log (some "log") true false true
      = .error (.osError "load_file failed") :=
  ⟨C7_best_effort_logging.1 true,
   C7_best_effort_logging.2.2.2.2.2.1 "log" (by decide)⟩

/-- C8 counterexample: the delay value `"+5x"` is neither `"now"` nor of
the form `+<digits>` as a whole, so by the claim it should pass through
unchanged; but `re.match` only anchors at the start, so the code turns it
into `"5xm"`. -/
theorem C8_counterexample :
    load_power_state (some (.dict [("mode", .str "reboot"), ("delay", .str "+5x")]))
      = .ok (some ["sh", "-c", shcmd, "curtin-poweroff", "5xm",
                   "shutdown", "-r", "now"]) ∧
    ("5xm" : String) ≠ "+5x" := ⟨rfl, by decide⟩

/-- C8 (amended): no power-state config yields no command; a non-dict or
an unrecognized mode raises TypeError; the delay token resolves as:
`"now"` to `"0"`, a string starting with `+` and a digit to its tail with
`m` appended (so `"+5"` gives `"5m"` and `"+5x"` gives `"5xm"`), and any
other string passes through as itself. -/
theorem C8_power_state_command :
    (load_power_state none = .ok none) ∧
    (∀ v : JVal, v.isDict = false →
      load_power_state (some v) = .error (.typeError "power_state is not a dict.")) ∧
    (∀ kvs, modeFlag (dictGet kvs "mode") = none →
      load_power_state (some (.dict kvs)) =
        .error (.typeError
          "power_state[mode] required, must be one of: halt,poweroff,reboot.")) ∧
    (∀ kvs opt, modeFlag (dictGet kvs "mode") = some opt →
      load_power_state (some (.dict kvs)) =
        .ok (some (["sh", "-c", shcmd, "curtin-poweroff",
                    resolveDelay ((dictGet kvs "delay").getD (.str "5"))]
                   ++ ["shutdown", opt, "now"]
                   ++ (match dictGet kvs "message" with
                       | some m => if truthy m then [pyStr m] else []
                       | none => [])))) ∧
    (resolveDelay (.str "now") = "0") ∧
    (∀ s : String, plusDigits s = true → resolveDelay (.str s) = strTail s ++ "m") ∧
    (∀ s : String, s ≠ "now" → plusDigits s = false → resolveDelay (.str s) = s) := by
  refine ⟨rfl, ?_, ?_, ?_, rfl, ?_, ?_⟩
  · intro v hv
    cases v with
    | dict kvs => simp [JVal.isDict] at hv
    | null => rfl
    | bool b => rfl
    | int n => rfl
    | str s => rfl
    | list xs => rfl
  · intro kvs hm
    simp [load_power_state, hm]
  · intro kvs opt hm
    simp [load_power_state, hm]
  · intro s hp
    have hns : s ≠ "now" := by
      intro he
      rw [he] at hp
      exact absurd hp (by decide)
    simp [resolveDelay, pyEqStr, hns, hp, pyStr]
  · intro s hne hp
    simp [resolveDelay, pyEqStr, hne, hp, pyStr]

/-- Witness for C8 (amended): delay `"+5"` yields token `"5m"`, delay
`"now"` yields `"0"`, and a non-dict power state raises TypeError. -/
theorem C8_power_state_command_witness :
    load_power_state (some (.dict [("mode", .str "reboot"), ("delay", .str "+5")]))
      = .ok (some ["sh", "-c", shcmd, "curtin-poweroff", "5m",
                   "shutdown", "-r", "now"]) ∧
    load_power_state (some (.dict [("mode", .str "reboot"), ("delay", .str "now")]))
      = .ok (some ["sh", "-c", shcmd, "curtin-poweroff", "0",
                   "shutdown", "-r", "now"]) ∧
    load_power_state (some (.str "reboot"))
      = .error (.typeError "power_state is not a dict.") := by
  refine ⟨?_, ?_, C8_power_state_command.2.1 (.str "reboot") (by rfl)⟩
  · exact C8_power_state_command.2.2.2.1
      [("mode", .str "reboot"), ("delay", .str "+5")] "-r" (by rfl)
  · exact C8_power_state_command.2.2.2.1
      [("mode", .str "reboot"), ("delay", .str "now")] "-r" (by rfl)

/-- C10: when the parsed default index is at least the number of menuentry
lines (and at least one menuentry exists), kexec preparation raises the
unhandled IndexError from `menu_lines[default]`, unlike the soft failure
(log + return False) used when no menuentry exists at all. -/
theorem C10_index_error (kvs : List (String × JVal)) (target : String)
    (lines : List String)
    (hmode : dictGet kvs "mode" = some (.str "on"))
    (hmenu : menuLines lines ≠ [])
    (hbig : (menuLines lines).length ≤ findDefault lines) :
    apply_kexec (some (.dict kvs)) target true lines
      = .error (.indexError "list index out of range") ∧
    (∀ lines2, menuLines lines2 = [] →
      apply_kexec (some (.dict kvs)) target true lines2 = .ok .noMenuEntry) := by
  constructor
  · have hget : (menuLines lines)[findDefault lines]? = none :=
      List.getElem?_eq_none hbig
    have hne : (menuLines lines).isEmpty = false := by
      cases hmm : menuLines lines with
      | nil => exact absurd hmm hmenu
      | cons a as => rfl
    simp [apply_kexec, pyGetAttrGet, hmode, pyEqStr, JVal.isDict, parseGrub,
      hne, hget]
  · intro lines2 h2
    simp [apply_kexec, pyGetAttrGet, hmode, pyEqStr, JVal.isDict, parseGrub, h2]

/-- Witness for C10: a config whose (matching) `set default` line parses
to 9 with a single menuentry raises IndexError; a config with no
menuentry at all soft-fails. -/
theorem C10_index_error_witness :
    apply_kexec (some (.dict [("mode", .str "on")])) "/t" true
        ["set default=\"9\"x\n", "menuentry A\n"]
      = .error (.indexError "list index out of range") ∧
    apply_kexec (some (.dict [("mode", .str "on")])) "/t" true ["hello\n"]
      = .ok .noMenuEntry := by
  have h := C10_index_error [("mode", .str "on")] "/t"
    ["set default=\"9\"x\n", "menuentry A\n"] (by rfl) (by decide) (by decide)
  exact ⟨h.1, h.2 ["hello\n"] (by decide)⟩

end Curtin
